import Mathlib

/-!
Verification of the svg-vectorizer-pro core against its specification.

JS strings are modelled as lists of UTF-16 code units (`List Nat`); ASCII
inputs, the only ones the repository produces, are covered exactly.  JS
numbers are modelled as exact rationals together with a NaN marker
(`JSNum`); binary64 rounding is immaterial to every property proved here.
-/

namespace SVGVec

/-- Code units of a Lean string literal, used to write concrete JS strings. -/
def codes (s : String) : List Nat := s.data.map Char.toNat


/-- ASCII whitespace, the class matched by `\s` / `trim` on the inputs at hand. -/
def wsCode (n : Nat) : Bool :=
  n = 32 || n = 9 || n = 10 || n = 11 || n = 12 || n = 13


/-- ASCII lowercase letter test (JS `[a-z]`). -/
def lowerCode (n : Nat) : Bool := 97 ≤ n && n ≤ 122


/-- ASCII uppercase letter test (JS `[A-Z]`). -/
def upperCode (n : Nat) : Bool := 65 ≤ n && n ≤ 90


/-- JS `String.prototype.toUpperCase` on one ASCII code unit. -/
def upCode (n : Nat) : Nat := if lowerCode n then n - 32 else n


/-- JS `String.prototype.toLowerCase` on one ASCII code unit. -/
def downCode (n : Nat) : Nat := if upperCode n then n + 32 else n


/-- JS `String.prototype.trim`. -/
def jsTrim (l : List Nat) : List Nat :=
  ((l.dropWhile wsCode).reverse.dropWhile wsCode).reverse


/-- JS `toUpperCase` over a whole string. -/
def jsToUpper (l : List Nat) : List Nat := l.map upCode


/-- JS `toLowerCase` over a whole string. -/
def jsToLower (l : List Nat) : List Nat := l.map downCode


/-- ASCII digit test (regex `\d`). -/
def digitCode (n : Nat) : Bool := 48 ≤ n && n ≤ 57


/-- Value of a digit string (JS `parseInt` on an all-digit capture). -/
def digitsToNat (ds : List Nat) : Nat := ds.foldl (fun a c => 10 * a + (c - 48)) 0


/-- Match `\d+` at the start of the input, returning its value and the rest. -/
def takeNumber (l : List Nat) : Option (Nat × List Nat) :=
  let ds := l.takeWhile digitCode
  if ds.isEmpty then none else some (digitsToNat ds, l.dropWhile digitCode)


/-- Match the tail `(\d+),\s*(\d+),\s*(\d+)` of the rgb regex after the
opening parenthesis (code 44 is the comma). -/
def matchRgbTail (l : List Nat) : Option (Nat × Nat × Nat) :=
  match takeNumber l with
  | none => none
  | some (n1, r1) =>
    match r1 with
    | 44 :: r2 =>
      match takeNumber (r2.dropWhile wsCode) with
      | none => none
      | some (n2, r4) =>
        match r4 with
        | 44 :: r5 =>
          match takeNumber (r5.dropWhile wsCode) with
          | none => none
          | some (n3, _) => some (n1, n2, n3)
        | _ => none
    | _ => none


/-- Match `rgba?\(` then the argument tail at the current position
(`r g b` are codes 114 103 98, `a` is 97, `(` is 40). -/
def matchRgbAt : List Nat → Option (Nat × Nat × Nat)
  | 114 :: 103 :: 98 :: 97 :: 40 :: rest => matchRgbTail rest
  | 114 :: 103 :: 98 :: 40 :: rest => matchRgbTail rest
  | _ => none


/-- JS `String.prototype.match` with `/rgba?\((\d+),\s*(\d+),\s*(\d+)/`:
scan for the first position where the whole pattern matches. -/
def findRgb : List Nat → Option (Nat × Nat × Nat)
  | [] => none
  | c :: cs =>
    match matchRgbAt (c :: cs) with
    | some v => some v
    | none => findRgb cs


/-- Hex digit emitted by JS `Number.prototype.toString(16)` (lowercase). -/
def hexDigitOut (n : Nat) : Nat := if n < 10 then 48 + n else 87 + n


/-- Digit-accumulating loop of `toHex`; the first argument is fuel, always
sufficient because the value shrinks by a factor of 16 each round. -/
def toHexAux : Nat → Nat → List Nat → List Nat
  | 0, _, acc => acc
  | fuel + 1, n, acc =>
    if n < 16 then hexDigitOut n :: acc
    else toHexAux fuel (n / 16) (hexDigitOut (n % 16) :: acc)


/-- JS `Number.prototype.toString(16)` for a natural number. -/
def toHex (n : Nat) : List Nat := toHexAux (n + 1) n []


/-- JS `String.prototype.padStart(2, '0')` (code 48 is `0`). -/
def padStart2 (l : List Nat) : List Nat :=
  if 2 ≤ l.length then l else List.replicate (2 - l.length) 48 ++ l


/-- The `namedColors` table of `normalizeColor`. -/
def namedColors : List (List Nat × List Nat) :=
  [ (codes ("black"), codes ("#000000")),
    (codes ("white"), codes ("#FFFFFF")),
    (codes ("red"), codes ("#FF0000")),
    (codes ("green"), codes ("#008000")),
    (codes ("blue"), codes ("#0000FF")),
    (codes ("yellow"), codes ("#FFFF00")),
    (codes ("cyan"), codes ("#00FFFF")),
    (codes ("magenta"), codes ("#FF00FF")),
    (codes ("gray"), codes ("#808080")),
    (codes ("grey"), codes ("#808080")) ]


/-- JS object lookup `namedColors[key]` (`undefined` becomes `none`). -/
def lookupNamed (l : List Nat) : Option (List Nat) :=
  (namedColors.find? (fun p => p.1 == l)).map (fun p => p.2)


/-- Body of `normalizeColor` after the initial `trim`: first match of
`rgba?\((\d+),\s*(\d+),\s*(\d+)/` converted per component via
`toString(16).padStart(2,'0')` and uppercased; else strings starting with `#`
(code 35) are passed through uppercased; else the named-color table after
lowercasing; else `#000000`. -/
def normColorCore (color : List Nat) : List Nat :=
  match findRgb color with
  | some (r, g, b) =>
    jsToUpper (35 :: (padStart2 (toHex r) ++ padStart2 (toHex g) ++ padStart2 (toHex b)))
  | none =>
    if color.head? = some 35 then jsToUpper color
    else
      match lookupNamed (jsToLower color) with
      | some v => v
      | none => codes ("#000000")


/-- `normalizeColor` from SVGColorEditor / ConversionResultsEnhanced
(the two copies are textually identical). -/
def normalizeColor (l : List Nat) : List Nat := normColorCore (jsTrim l)


/-- The output format the spec promises: `^#[0-9A-F]{6}$`. -/
def colorFormatOK (l : List Nat) : Bool :=
  match l with
  | 35 :: rest => rest.length = 6 && rest.all (fun n => digitCode n || (65 ≤ n && n ≤ 70))
  | _ => false


/-! ### The conversion queue (conversionQueue.ts)

`process` is an async loop; its two await points (the tracer call and the
100 ms inter-item delay) are where external calls interleave.  The code
between two await points runs atomically, so the queue is modelled as a
state machine whose `step` action advances execution to the next await
point, while `enqueue`, `setParams` and `clear` are the externally
callable methods.  `enqueue` on an idle queue runs `process` synchronously
up to the first await, i.e. it already shifts the first item and calls the
tracer with the parameters current at that moment. -/


/-- A queue item: id plus file name (the callbacks are modelled by the
event trace). -/
structure QTask where
  id : Nat
  name : List Nat
deriving DecidableEq


/-- Result of `convertImageFile`: an svg string and an optional error. -/
structure ConvResult where
  svg : List Nat
  error : Option (List Nat)
deriving DecidableEq


/-- Where inside the `process` loop execution currently rests:
not inside the loop, awaiting the tracer (with the item and its already
determined result), or in the inter-item delay. -/
inductive QPhase
  | idle
  | converting (t : QTask) (r : ConvResult)
  | delaying
deriving DecidableEq


/-- The fields of the `ConversionQueue` class plus the phase marker. -/
structure QState where
  queue : List QTask
  isProcessing : Bool
  completed : Nat
  total : Nat
  currentFile : Option (List Nat)
  params : Nat
  phase : QPhase
deriving DecidableEq


/-- A fresh queue with `DEFAULT_PARAMS` (modelled as the scalar 0). -/
def initQ : QState :=
  { queue := []
    isProcessing := false
    completed := 0
    total := 0
    currentFile := none
    params := 0
    phase := .idle }


/-- Observable callback invocations, in order. -/
inductive QEvent
  | progress (id : Nat) (p : Nat)
  | invoke (id : Nat) (params : Nat)
  | complete (id : Nat) (svg : List Nat)
  | error (id : Nat) (msg : List Nat)
deriving DecidableEq


/-- Externally triggered transitions: the queue methods, plus `step`
resuming the `process` loop at an await point. -/
inductive QAction
  | enqueue (ts : List QTask)
  | setParams (p : Nat)
  | clear
  | step
deriving DecidableEq


/-- Begin the next loop iteration: shift the head item, set `currentFile`,
report `onProgress(10)`, and call the tracer with the current `params`.  The
tracer `f` is the external pure function of spec section 6. -/
def beginItem (f : QTask → Nat → ConvResult) (s : QState) : QState × List QEvent :=
  match s.queue with
  | [] => (s, [])
  | t :: rest =>
    ({ s with
        queue := rest
        currentFile := some t.name
        phase := .converting t (f t s.params) },
     [.progress t.id 10, .invoke t.id s.params])


/-- The events a finishing item reports: `onError(result.error)`, or
`onProgress(100)` then `onComplete(result.svg)`. -/
def deliverEvents (t : QTask) (r : ConvResult) : List QEvent :=
  match r.error with
  | some m => [.error t.id m]
  | none => [.progress t.id 100, .complete t.id r.svg]


/-- One externally observable transition of the queue. -/
def stepAction (f : QTask → Nat → ConvResult) (s : QState) :
    QAction → QState × List QEvent
  | .enqueue ts =>
    let s1 := { s with queue := s.queue ++ ts, total := (s.queue ++ ts).length }
    if s1.isProcessing || s1.queue.isEmpty then (s1, [])
    else beginItem f { s1 with isProcessing := true }
  | .setParams p => ({ s with params := p }, [])
  | .clear =>
    ({ s with queue := [], completed := 0, total := 0, currentFile := none }, [])
  | .step =>
    match s.phase with
    | .converting t r =>
      ({ s with completed := s.completed + 1, phase := .delaying }, deliverEvents t r)
    | .delaying =>
      if s.queue.isEmpty then
        ({ s with isProcessing := false, currentFile := none, phase := .idle }, [])
      else beginItem f s
    | .idle => (s, [])


/-- Run a list of actions, accumulating the event trace. -/
def runQ (f : QTask → Nat → ConvResult) : QState → List QAction → QState × List QEvent
  | s, [] => (s, [])
  | s, a :: as =>
    let p := stepAction f s a
    let q := runQ f p.1 as
    (q.1, p.2 ++ q.2)


/-- The full event trace of one item processed with parameters `p`. -/
def itemEvents (f : QTask → Nat → ConvResult) (p : Nat) (t : QTask) : List QEvent :=
  [.progress t.id 10, .invoke t.id p] ++ deliverEvents t (f t p)


/-- The id an event reports to. -/
def eventId : QEvent → Nat
  | .progress i _ => i
  | .invoke i _ => i
  | .complete i _ => i
  | .error i _ => i


/-! ### The path mini-language interpreter of ExportOptions
(`parseSVGPath`, `pathCommandsToPDF`) -/


/-- Euclid loop with fuel (structural, so the kernel can evaluate it; the
first argument shrinks every round, hence fuel `m` suffices). -/
def gcdF : Nat → Nat → Nat → Nat
  | 0, _, n => n
  | f + 1, m, n => if m = 0 then n else gcdF f (n % m) m


/-- Greatest common divisor, kernel-computable. -/
def natGcd (m n : Nat) : Nat := gcdF m m n


/-- An exact rational in lowest terms, written `num / den`, built only
through the smart constructor `jqMk` below so structural equality is value
equality on every number produced here. -/
structure JQ where
  num : Int
  den : Nat
deriving DecidableEq


/-- Normalizing constructor: divide out the gcd (the denominator is always
a positive power of ten or a product of such below, never zero). -/
def jqMk (n : Int) (d : Nat) : JQ :=
  let g := natGcd n.natAbs d
  if g = 0 then ⟨0, 0⟩ else ⟨n / (g : Int), d / g⟩


/-- Embed an integer. -/
def jqInt (n : Int) : JQ := ⟨n, 1⟩


def jqAdd (a b : JQ) : JQ := jqMk (a.num * b.den + b.num * a.den) (a.den * b.den)


def jqMul (a b : JQ) : JQ := jqMk (a.num * b.num) (a.den * b.den)


/-- Division `a / b` (sign moved into the numerator). -/
def jqDiv (a b : JQ) : JQ :=
  if b.num < 0 then jqMk (-(a.num * b.den)) (a.den * (-b.num).toNat)
  else jqMk (a.num * b.den) (a.den * b.num.toNat)


/-- A JS number: NaN or an exact rational (binary64 rounding is immaterial
to the properties below). -/
inductive JSNum
  | nan
  | val (q : JQ)
deriving DecidableEq


/-- JS `+` on numbers: NaN propagates. -/
def jsAdd : JSNum → JSNum → JSNum
  | .val a, .val b => .val (jqAdd a b)
  | _, _ => .nan


/-- Exponent part of `parseFloat`: optional sign then digits, returned as
(negative?, magnitude); an `e` not followed by digits contributes exponent 0
(it is simply not consumed). -/
def parseExpPart (r : List Nat) : Bool × Nat :=
  let neg := decide (r.head? = some 45)
  let r1 := if r.head? = some 45 || r.head? = some 43 then r.tail else r
  let ds := r1.takeWhile digitCode
  if ds.isEmpty then (false, 0) else (neg, digitsToNat ds)


/-- JS `parseFloat` on the decimal-literal grammar: skip leading whitespace,
optional sign, integer digits, optional fraction, optional exponent; NaN when
no digit is found.  (`Infinity` literals never occur in path data.) -/
def parseFloatL (l0 : List Nat) : JSNum :=
  let l := l0.dropWhile wsCode
  let sgn : JQ := if l.head? = some 45 then jqInt (-1) else jqInt 1
  let l1 := if l.head? = some 45 || l.head? = some 43 then l.tail else l
  let ip := l1.takeWhile digitCode
  let l2 := l1.dropWhile digitCode
  let fp := match l2 with
    | 46 :: r => r.takeWhile digitCode
    | _ => []
  let l3 := match l2 with
    | 46 :: r => r.dropWhile digitCode
    | _ => l2
  if ip.isEmpty && fp.isEmpty then .nan
  else
    let mantissa : JQ := jqMul sgn
      (jqAdd (jqInt (digitsToNat ip)) (jqDiv (jqInt (digitsToNat fp)) (jqInt (10 ^ fp.length))))
    let e : Bool × Nat := match l3 with
      | 101 :: r => parseExpPart r
      | 69 :: r => parseExpPart r
      | _ => (false, 0)
    .val (if e.1 then jqDiv mantissa (jqInt (10 ^ e.2)) else jqMul mantissa (jqInt (10 ^ e.2)))


/-- The command-letter class `[MmLlHhVvCcSsQqTtAaZz]` of the path regex. -/
def cmdLetter (n : Nat) : Bool :=
  n = 77 || n = 109 || n = 76 || n = 108 || n = 72 || n = 104 || n = 86 || n = 118 ||
  n = 67 || n = 99 || n = 83 || n = 115 || n = 81 || n = 113 || n = 84 || n = 116 ||
  n = 65 || n = 97 || n = 90 || n = 122


/-- Separator class of the argument splitter `[\s,]+`. -/
def sepCode (n : Nat) : Bool := wsCode n || n = 44


/-- Splitting loop with fuel (structural, so that it evaluates in the
kernel); the list shrinks on every call, so fuel `l.length` is exact. -/
def tokensAux : Nat → List Nat → List (List Nat)
  | 0, _ => []
  | _, [] => []
  | fuel + 1, c :: cs =>
    if sepCode c then tokensAux fuel cs
    else ((c :: cs).takeWhile (fun n => !sepCode n))
      :: tokensAux fuel ((c :: cs).dropWhile (fun n => !sepCode n)).tail


/-- JS `split(/[\s,]+/)` followed by dropping empty tokens. -/
def tokens (l : List Nat) : List (List Nat) := tokensAux l.length l


/-- One parsed command: the letter and its numeric argument list. -/
structure RawCmd where
  cmd : Nat
  args : List JSNum
deriving DecidableEq


/-- The regex-exec loop of `parseSVGPath`, with fuel for structural
recursion (the scanned list shrinks every round, so fuel `l.length` is
exact): characters before a command letter never match and are passed over;
each command letter captures the run of non-command characters after it as
its argument string. -/
def lexPathAux : Nat → List Nat → List RawCmd
  | 0, _ => []
  | _, [] => []
  | fuel + 1, c :: cs =>
    if cmdLetter c then
      { cmd := c,
        args := (tokens (jsTrim (cs.takeWhile (fun n => !cmdLetter n)))).map parseFloatL }
        :: lexPathAux fuel (cs.dropWhile (fun n => !cmdLetter n))
    else lexPathAux fuel cs


/-- `parseSVGPath` from ExportOptions: total, never reports an error. -/
def parseSVGPath (d : List Nat) : List RawCmd := lexPathAux d.length d


/-- The drawing operators `pathCommandsToPDF` appends to the content
stream (`x y m`, `x y l`, `x1 y1 x2 y2 x y c`, `h`). -/
inductive PDFOp
  | moveOp (x y : JSNum)
  | lineOp (x y : JSNum)
  | curveOp (x1 y1 x2 y2 x y : JSNum)
  | closeOp
deriving DecidableEq


/-- `args[i]`; JS yields `undefined` out of range, which behaves like NaN in
the arithmetic these loops perform on it. -/
def getArg (args : List JSNum) (i : Nat) : JSNum := args.getD i JSNum.nan


/-- The `M`/`m` and `L`/`l` loops, with fuel for structural recursion: two
arguments per iteration (`for (i = 0; i < args.length; i += 2)`). -/
def pairLoopAux (abs : Bool) (mk : JSNum → JSNum → PDFOp) :
    Nat → JSNum → JSNum → List JSNum → (JSNum × JSNum) × List PDFOp
  | 0, cx, cy, _ => ((cx, cy), [])
  | _, cx, cy, [] => ((cx, cy), [])
  | fuel + 1, cx, cy, a :: rest =>
    let x := if abs then a else jsAdd cx a
    let y := if abs then getArg rest 0 else jsAdd cy (getArg rest 0)
    let next := pairLoopAux abs mk fuel x y (rest.drop 1)
    (next.1, mk x y :: next.2)


/-- The `M`/`m` and `L`/`l` loops of `pathCommandsToPDF`. -/
def pairLoop (abs : Bool) (mk : JSNum → JSNum → PDFOp)
    (cx cy : JSNum) (args : List JSNum) : (JSNum × JSNum) × List PDFOp :=
  pairLoopAux abs mk args.length cx cy args


/-- The `C`/`c` loop, with fuel for structural recursion: six arguments per
iteration. -/
def sixLoopAux (abs : Bool) :
    Nat → JSNum → JSNum → List JSNum → (JSNum × JSNum) × List PDFOp
  | 0, cx, cy, _ => ((cx, cy), [])
  | _, cx, cy, [] => ((cx, cy), [])
  | fuel + 1, cx, cy, a :: rest =>
    let x1 := if abs then a else jsAdd cx a
    let y1 := if abs then getArg rest 0 else jsAdd cy (getArg rest 0)
    let x2 := if abs then getArg rest 1 else jsAdd cx (getArg rest 1)
    let y2 := if abs then getArg rest 2 else jsAdd cy (getArg rest 2)
    let x := if abs then getArg rest 3 else jsAdd cx (getArg rest 3)
    let y := if abs then getArg rest 4 else jsAdd cy (getArg rest 4)
    let next := sixLoopAux abs fuel x y (rest.drop 5)
    (next.1, .curveOp x1 y1 x2 y2 x y :: next.2)


/-- The `C`/`c` loop of `pathCommandsToPDF`. -/
def sixLoop (abs : Bool) (cx cy : JSNum) (args : List JSNum) :
    (JSNum × JSNum) × List PDFOp :=
  sixLoopAux abs args.length cx cy args


/-- One `switch` dispatch of `pathCommandsToPDF`: only `M m L l C c Z z`
have cases; every other command letter falls through the switch and
contributes nothing. -/
def pdfCmdStep (st : JSNum × JSNum) (rc : RawCmd) : (JSNum × JSNum) × List PDFOp :=
  if rc.cmd = 77 then pairLoop true .moveOp st.1 st.2 rc.args
  else if rc.cmd = 109 then pairLoop false .moveOp st.1 st.2 rc.args
  else if rc.cmd = 76 then pairLoop true .lineOp st.1 st.2 rc.args
  else if rc.cmd = 108 then pairLoop false .lineOp st.1 st.2 rc.args
  else if rc.cmd = 67 then sixLoop true st.1 st.2 rc.args
  else if rc.cmd = 99 then sixLoop false st.1 st.2 rc.args
  else if rc.cmd = 90 || rc.cmd = 122 then (st, [.closeOp])
  else (st, [])


/-- Fold of `pdfCmdStep` over the command list, starting from the current
point (0,0). -/
def pdfFold : (JSNum × JSNum) → List RawCmd → List PDFOp
  | _, [] => []
  | st, rc :: rcs =>
    let p := pdfCmdStep st rc
    p.2 ++ pdfFold p.1 rcs


/-- `pathCommandsToPDF` from ExportOptions. -/
def pathCommandsToPDF (cmds : List RawCmd) : List PDFOp :=
  pdfFold (.val (jqInt 0), .val (jqInt 0)) cmds


/-! ### The CAD-exchange emitter (`downloadDXF`) -/


/-- A `path` element as `downloadDXF` reads it: its `d` and `fill`
attributes (the emitter queries only `path` elements). -/
structure PathElem where
  d : Option (List Nat)
  fill : Option (List Nat)
deriving DecidableEq


/-- One emitted `LINE` entity, with the numeric group codes as fields:
layer (8), start point (10/20/30), end point (11/21/31), color (62). -/
structure DXFEntity where
  layer : Nat
  x1 : Int
  y1 : Int
  z1 : Int
  x2 : Int
  y2 : Int
  z2 : Int
  colorIndex : Nat
deriving DecidableEq


/-- The entity written for one path: coordinates are the literal constants
`0 0 0` and `100 100 0` of the source; color 256 iff the raw fill string
(defaulted when falsy) is exactly `#000000`, else 7. -/
def dxfEntity (p : PathElem) : DXFEntity :=
  let fill := match p.fill with
    | none => codes ("#000000")
    | some f => if f.isEmpty then codes ("#000000") else f
  { layer := 0, x1 := 0, y1 := 0, z1 := 0, x2 := 100, y2 := 100, z2 := 0,
    colorIndex := if fill = codes ("#000000") then 256 else 7 }


/-- The structural sections of the emitted DXF text. -/
inductive DXFSection
  | header
  | entities (es : List DXFEntity)
  | eof
deriving DecidableEq


/-- `downloadDXF` from ExportOptions / the unnamed export module (identical
except for group-code indentation): a HEADER section, one LINE entity per
`path` element, then EOF. -/
def downloadDXF (paths : List PathElem) : List DXFSection :=
  [.header, .entities (paths.map dxfEntity), .eof]


/-- Number of entities in an emitted section list. -/
def dxfEntityCount (out : List DXFSection) : Nat :=
  (out.map (fun s => match s with
    | .entities es => es.length
    | _ => 0)).sum


/-! ### The print-vector color conversion (`hexToRGB` in ExportOptions) -/


/-- Value of one hex digit under the case-insensitive class `[a-f\d]`. -/
def hexDigitVal : Nat → Option Nat := fun n =>
  if 48 ≤ n && n ≤ 57 then some (n - 48)
  else if 97 ≤ n && n ≤ 102 then some (n - 87)
  else if 65 ≤ n && n ≤ 70 then some (n - 55)
  else none


/-- Match `([a-f\d]{2})` at the head, returning `parseInt(_, 16)` of the
pair and the rest. -/
def hexPair : List Nat → Option (Nat × List Nat)
  | a :: b :: rest =>
    match hexDigitVal a, hexDigitVal b with
    | some va, some vb => some (16 * va + vb, rest)
    | _, _ => none
  | _ => none


/-- Match the whole body `([a-f\d]{2})([a-f\d]{2})([a-f\d]{2})$`. -/
def hexMatch (l : List Nat) : Option (Nat × Nat × Nat) :=
  match hexPair l with
  | none => none
  | some (r, l1) =>
    match hexPair l1 with
    | none => none
    | some (g, l2) =>
      match hexPair l2 with
      | none => none
      | some (b, l3) => if l3.isEmpty then some (r, g, b) else none


/-- The input after the optional leading `#` of `^#?`. -/
def hexBody (l : List Nat) : List Nat :=
  if l.head? = some 35 then l.tail else l


/-- `hexToRGB` from ExportOptions: on any string not matching
`^#?([a-f\d]{2})([a-f\d]{2})([a-f\d]{2})$/i` it returns black. -/
def hexToRGB (l : List Nat) : Nat × Nat × Nat :=
  (hexMatch (hexBody l)).getD (0, 0, 0)


/-- Whether the input is a six-hex-digit color, optionally `#`-prefixed
(the claim predicate). -/
def isHex6 (l : List Nat) : Bool :=
  (hexBody l).length = 6 && (hexBody l).all (fun n => (hexDigitVal n).isSome)


/-- The color-set operator triple `r/255 g/255 b/255` that `createVectorPDF`
writes before each element, as exact rationals. -/
def rgOperator (fill : List Nat) : ℚ × ℚ × ℚ :=
  let rgb := hexToRGB fill
  ((rgb.1 : ℚ) / 255, (rgb.2.1 : ℚ) / 255, (rgb.2.2 : ℚ) / 255)


/-! ### The circle approximation of `createVectorPDF`
(`circleToBezier` in the spec; inline in the circles branch of the source).
Coordinates are exact rationals; the JS literal 0.552 is modelled as
552/1000. -/


/-- The control-point distance ratio `k = 0.552` of the source. -/
def circleK : ℚ := 552 / 1000


/-- One cubic segment: endpoints `p0`,`p3` and control points `c1`,`c2`. -/
structure Cubic where
  p0 : ℚ × ℚ
  c1 : ℚ × ℚ
  c2 : ℚ × ℚ
  p3 : ℚ × ℚ


/-- A drawing operator of the circles branch (`x y m` / six-number `c`). -/
inductive VecOp
  | moveV (x y : ℚ)
  | curveV (x1 y1 x2 y2 x y : ℚ)


/-- The five operators the source emits for one circle, verbatim. -/
def circleToBezier (cx cy r : ℚ) : List VecOp :=
  [ .moveV (cx - r) cy,
    .curveV (cx - r) (cy + circleK * r) (cx - circleK * r) (cy + r) cx (cy + r),
    .curveV (cx + circleK * r) (cy + r) (cx + r) (cy + circleK * r) (cx + r) cy,
    .curveV (cx + r) (cy - circleK * r) (cx + circleK * r) (cy - r) cx (cy - r),
    .curveV (cx - circleK * r) (cy - r) (cx - r) (cy - circleK * r) (cx - r) cy ]


/-- The same four curves as cubic segments with explicit endpoints. -/
def circleSegs (cx cy r : ℚ) : List Cubic :=
  [ ⟨(cx - r, cy), (cx - r, cy + circleK * r), (cx - circleK * r, cy + r), (cx, cy + r)⟩,
    ⟨(cx, cy + r), (cx + circleK * r, cy + r), (cx + r, cy + circleK * r), (cx + r, cy)⟩,
    ⟨(cx + r, cy), (cx + r, cy - circleK * r), (cx + circleK * r, cy - r), (cx, cy - r)⟩,
    ⟨(cx, cy - r), (cx - circleK * r, cy - r), (cx - r, cy - circleK * r), (cx - r, cy)⟩ ]


/-- Rendering of a start point plus cubic segments as drawing operators. -/
def cubicOps (start : ℚ × ℚ) (segs : List Cubic) : List VecOp :=
  .moveV start.1 start.2
    :: segs.map (fun s => .curveV s.c1.1 s.c1.2 s.c2.1 s.c2.2 s.p3.1 s.p3.2)


/-- Squared euclidean distance. -/
def dist2 (p q : ℚ × ℚ) : ℚ := (p.1 - q.1) ^ 2 + (p.2 - q.2) ^ 2


/-- A point of a cubic Bezier segment at parameter `t`. -/
def bezPoint (s : Cubic) (t : ℚ) : ℚ × ℚ :=
  ((1 - t) ^ 3 * s.p0.1 + 3 * (1 - t) ^ 2 * t * s.c1.1
     + 3 * (1 - t) * t ^ 2 * s.c2.1 + t ^ 3 * s.p3.1,
   (1 - t) ^ 3 * s.p0.2 + 3 * (1 - t) ^ 2 * t * s.c1.2
     + 3 * (1 - t) * t ^ 2 * s.c2.2 + t ^ 3 * s.p3.2)


/-- Sample point `ti/16` of segment `si` on the unit test circle of
radius 10 at the origin. -/
def circleSample (si ti : Nat) : ℚ × ℚ :=
  bezPoint ((circleSegs 0 0 10).getD si ⟨(0, 0), (0, 0), (0, 0), (0, 0)⟩)
    ((ti : ℚ) / 16)


/-- Whether the last code unit, if any, is non-whitespace (so that a second
`trim` leaves the string unchanged on the right). -/
def lastOk (l : List Nat) : Bool := l.reverse.head?.all (fun c => !wsCode c)


/-- The shape invariant of every `normalizeColor` output: starts with `#`,
ends in a non-whitespace code unit, and contains no ASCII lowercase letter.
Any string of this shape is a fixed point of `normalizeColor`. -/
structure GoodColor (l : List Nat) : Prop where
  head35 : l.head? = some 35
  lastNW : lastOk l = true
  noLower : ∀ c ∈ l, lowerCode c = false


/-! ### Document model and the bulk recolor engine
(`applyBulkColorChange` in ConversionResultsEnhanced) -/


/-- A drawable element as the recolor loop sees it: its `fill` attribute and
its `style` attribute, each possibly absent (`getAttribute` returning null). -/
structure SVGElem where
  fill : Option (List Nat)
  style : Option (List Nat)
deriving DecidableEq


/-- Match `fill:\s*([^;]+)/` at the current position (`f i l l :` are codes
102 105 108 108 58; 59 is `;`).  The pattern matches here iff at least one
non-`;` character follows the colon
(whitespace counts: `\s*` backtracks, letting `[^;]+` consume it); the
capture, after the `trim` the caller applies, is the text between the
whitespace run and the next `;`. -/
def matchFillAt : List Nat → Option (List Nat)
  | 102 :: 105 :: 108 :: 108 :: 58 :: rest =>
    if (rest.takeWhile (fun n => n ≠ 59)).isEmpty then none
    else some ((rest.dropWhile wsCode).takeWhile (fun n => n ≠ 59))
  | _ => none


/-- First match of `/fill:\s*([^;]+)/` anywhere in a style string. -/
def findFill : List Nat → Option (List Nat)
  | [] => none
  | c :: cs =>
    match matchFillAt (c :: cs) with
    | some v => some v
    | none => findFill cs


/-- JS falsiness of `getAttribute`: null or the empty string. -/
def jsFalsy : Option (List Nat) → Bool
  | none => true
  | some l => l.isEmpty


/-- The `fill` value after the style-attribute fallback:
`let fill = getAttribute('fill'); if (!fill) { ...style match, trimmed... }`. -/
def rawFill (e : SVGElem) : Option (List Nat) :=
  if jsFalsy e.fill then
    match e.style with
    | some st =>
      match findFill st with
      | some v => some (jsTrim v)
      | none => e.fill
    | none => e.fill
  else e.fill


/-- The fill finally fed to `normalizeColor`:
`if (!fill || fill === 'none') fill = '#000000'`. -/
def effFill (e : SVGElem) : List Nat :=
  match rawFill e with
  | none => codes ("#000000")
  | some v => if v.isEmpty || v = codes ("none") then codes ("#000000") else v


/-- One element of the per-document loop of `applyBulkColorChange`: when the
normalized fill equals the (already normalized) source color, the `fill`
attribute is overwritten with the normalized target color. -/
def recolorElem (nFrom nTo : List Nat) (e : SVGElem) : SVGElem :=
  if normalizeColor (effFill e) = nFrom then { e with fill := some nTo } else e


/-- The per-document recolor pass of `applyBulkColorChange` (the spec's
`recolorGroup`): normalize both colors once, then rewrite every matching
element. -/
def recolorGroup (doc : List SVGElem) (cfrom cto : List Nat) : List SVGElem :=
  doc.map (recolorElem (normalizeColor cfrom) (normalizeColor cto))


/-- Number of elements whose normalized fill equals the normalization of `c`
(the `changedCount` the spec expects `recolorGroup` to report). -/
def countColor (doc : List SVGElem) (c : List Nat) : Nat :=
  (doc.filter (fun e => normalizeColor (effFill e) = normalizeColor c)).length


/-- A document source handed to `DOMParser.parseFromString`. -/
inductive SVGSource
  | wellFormed (elems : List SVGElem)
  | malformed
deriving DecidableEq


/-- `DOMParser.parseFromString` never throws: malformed markup yields a
`parsererror` document, in which `querySelectorAll` finds no drawable
elements. -/
def domParse : SVGSource → List SVGElem
  | .wellFormed es => es
  | .malformed => []


/-- One entry of the `results` array consumed by `applyBulkColorChange`. -/
structure BulkDoc where
  id : Nat
  success : Bool
  svg : SVGSource
deriving DecidableEq


/-- `applyBulkColorChange`: an early return when either color is unset
(falsy); otherwise every result whose status is success is parsed and
recolored, and its id is mapped to the recolored document
(`newEditedSVGs[result.id] = svgElement.outerHTML`).  No per-document
error or changed-count is produced. -/
def applyBulkColorChange (results : List BulkDoc) (cfrom cto : List Nat) :
    List (Nat × List SVGElem) :=
  if cfrom.isEmpty || cto.isEmpty then []
  else (results.filter (fun r => r.success)).map
    (fun r => (r.id, recolorGroup (domParse r.svg) cfrom cto))


/-- A tracer whose output records the parameters it was called with, used
to observe parameter snapshots. -/
def paramTracer : QTask → Nat → ConvResult := fun _t p => ⟨[p], none⟩


/-- A tracer with constant successful output. -/
def constTracer : QTask → Nat → ConvResult := fun _t _p => ⟨codes ("<svg/>"), none⟩


def qt1 : QTask := ⟨1, codes ("a.png")⟩

def qt2 : QTask := ⟨2, codes ("b.png")⟩

def qt3 : QTask := ⟨3, codes ("c.png")⟩


/-- Elements used in the recolor scenarios. -/
def elemA : SVGElem := ⟨some (codes ("#AA0000")), none⟩


def elemB : SVGElem := ⟨some (codes ("#00BB00")), none⟩


/-- The six-document batch of the spec scenario: three documents carry
color `#AA0000`, two do not, and one is malformed (with success status, as
its conversion succeeded). -/
def sixBatch : List BulkDoc :=
  [ ⟨1, true, .wellFormed [elemA]⟩,
    ⟨2, true, .wellFormed [elemA, elemB]⟩,
    ⟨3, true, .wellFormed [elemA]⟩,
    ⟨4, true, .wellFormed [elemB]⟩,
    ⟨5, true, .wellFormed []⟩,
    ⟨6, true, .malformed⟩ ]


/-! ## Properties and claim theorems -/
theorem runQ_append (f : QTask → Nat → ConvResult) (s : QState)
    (pre post : List QAction) :
    runQ f s (pre ++ post)
      = ((runQ f (runQ f s pre).1 post).1,
         (runQ f s pre).2 ++ (runQ f (runQ f s pre).1 post).2) := by
  induction pre generalizing s with
  | nil => simp [runQ]
  | cons a as ih =>
    simp only [List.cons_append, runQ, List.append_eq]
    rw [ih (stepAction f s a).1]
    simp [List.append_assoc]


/-- Draining lemma: from a state that is mid-conversion with `q` items still
queued, `2*|q| + 2` resumptions finish every item and exit the loop. -/
theorem runQ_drain (f : QTask → Nat → ConvResult) :
    ∀ (q : List QTask) (t : QTask) (r : ConvResult) (c tot p : Nat)
      (cf : Option (List Nat)),
    runQ f
        { queue := q
          isProcessing := true
          completed := c
          total := tot
          currentFile := cf
          params := p
          phase := .converting t r }
        (List.replicate (2 * q.length + 2) .step)
      = ({ queue := []
           isProcessing := false
           completed := c + 1 + q.length
           total := tot
           currentFile := none
           params := p
           phase := .idle },
         deliverEvents t r ++ q.flatMap (itemEvents f p)) := by
  intro q
  induction q with
  | nil =>
    intro t r c tot p cf
    simp [runQ, stepAction, List.replicate, deliverEvents]
  | cons t2 q2 ih =>
    intro t r c tot p cf
    have hlen : 2 * (t2 :: q2).length + 2 = (2 * q2.length + 2) + 2 := by
      simp [List.length_cons]
      ring
    rw [hlen, show (2 * q2.length + 2) + 2 = 2 + (2 * q2.length + 2) from by omega,
      List.replicate_add, runQ_append]
    have h2 : runQ f
        { queue := t2 :: q2
          isProcessing := true
          completed := c
          total := tot
          currentFile := cf
          params := p
          phase := .converting t r }
        (List.replicate 2 .step)
        = ({ queue := q2
             isProcessing := true
             completed := c + 1
             total := tot
             currentFile := some t2.name
             params := p
             phase := .converting t2 (f t2 p) },
           deliverEvents t r ++ [.progress t2.id 10, .invoke t2.id p]) := by
      simp [runQ, stepAction, List.replicate, beginItem]
    rw [h2, ih t2 (f t2 p) (c + 1) tot p (some t2.name)]
    simp only [Prod.mk.injEq]
    constructor
    · simp only [QState.mk.injEq, List.length_cons, eq_self_iff_true, and_true, true_and]
      omega
    · simp [itemEvents, List.flatMap_cons, List.append_assoc]


/-- C7 (amended): tasks enqueued in one call on an idle queue are processed
strictly in order; the run emits, per task, progress 10, the tracer
invocation, then either its error callback or progress 100 followed by its
completion — each task receives exactly one terminal callback and its
progress values are non-decreasing, ending at 100 strictly before its own
completion; the final state reports `completed = total = n` and
`isProcessing = false`. -/
theorem queue_single_batch (f : QTask → Nat → ConvResult) (ts : List QTask) :
    runQ f initQ (QAction.enqueue ts :: List.replicate (2 * ts.length) QAction.step)
      = ({ queue := []
           isProcessing := false
           completed := ts.length
           total := ts.length
           currentFile := none
           params := 0
           phase := .idle },
         ts.flatMap (itemEvents f 0)) := by
  cases ts with
  | nil => rfl
  | cons t rest =>
    have h1 : runQ f initQ [QAction.enqueue (t :: rest)]
        = ({ queue := rest
             isProcessing := true
             completed := 0
             total := (t :: rest).length
             currentFile := some t.name
             params := 0
             phase := .converting t (f t 0) },
           [.progress t.id 10, .invoke t.id 0]) := by
      simp [runQ, stepAction, initQ, beginItem]
    have hrep : 2 * (t :: rest).length = 2 * rest.length + 2 := by
      simp [List.length_cons]
      ring
    have hsplit : QAction.enqueue (t :: rest)
          :: List.replicate (2 * (t :: rest).length) QAction.step
        = [QAction.enqueue (t :: rest)]
          ++ List.replicate (2 * rest.length + 2) QAction.step := by
      rw [hrep]
      rfl
    rw [hsplit, runQ_append, h1]
    rw [runQ_drain]
    simp only [Prod.mk.injEq]
    constructor
    · simp only [QState.mk.injEq, List.length_cons, eq_self_iff_true, and_true, true_and]
      omega
    · simp [itemEvents, List.flatMap_cons, List.append_assoc]


example :
    runQ (fun _t _p => ⟨codes ("<svg/>"), none⟩) initQ
        [.enqueue [⟨1, codes ("a")⟩], .step, .step]
      = ({ queue := []
           isProcessing := false
           completed := 1
           total := 1
           currentFile := none
           params := 0
           phase := .idle },
         [.progress 1 10, .invoke 1 0, .progress 1 100, .complete 1 (codes ("<svg/>"))]) := by
  decide


example :
    parseSVGPath (codes ("M0 0 L10 0 L10 10 Z"))
      = [⟨77, [.val (jqInt 0), .val (jqInt 0)]⟩, ⟨76, [.val (jqInt 10), .val (jqInt 0)]⟩,
         ⟨76, [.val (jqInt 10), .val (jqInt 10)]⟩, ⟨90, []⟩] := by decide


example :
    pathCommandsToPDF (parseSVGPath (codes ("M0 0 l5 0 5 0")))
      = [.moveOp (.val (jqInt 0)) (.val (jqInt 0)), .lineOp (.val (jqInt 5)) (.val (jqInt 0)),
         .lineOp (.val (jqInt 10)) (.val (jqInt 0))] := by decide


example :
    pathCommandsToPDF (parseSVGPath (codes ("M0 0 H10")))
      = [.moveOp (.val (jqInt 0)) (.val (jqInt 0))] := by decide


example : parseFloatL (codes ("-1.5e2")) = .val (jqInt (-150)) := by
  decide


theorem hexPair_some {l : List Nat} {v : Nat} {rest : List Nat}
    (h : hexPair l = some (v, rest)) :
    ∃ a b, l = a :: b :: rest ∧ (hexDigitVal a).isSome ∧ (hexDigitVal b).isSome := by
  match l with
  | [] => exact absurd h (by simp [hexPair])
  | [a] => exact absurd h (by simp [hexPair])
  | a :: b :: r =>
    refine ⟨a, b, ?_⟩
    cases ha : hexDigitVal a with
    | none => rw [hexPair, ha] at h; exact absurd h (by simp)
    | some va =>
      cases hb : hexDigitVal b with
      | none => rw [hexPair, ha, hb] at h; exact absurd h (by simp)
      | some vb =>
        rw [hexPair, ha, hb] at h
        simp only [Option.some_inj, Prod.mk.injEq] at h
        exact ⟨by rw [h.2], by simp [ha], by simp [hb]⟩


theorem hexMatch_some_isHex6 {l : List Nat} {v : Nat × Nat × Nat}
    (h : hexMatch l = some v) :
    l.length = 6 ∧ l.all (fun n => (hexDigitVal n).isSome) = true := by
  rw [hexMatch] at h
  cases h1 : hexPair l with
  | none => rw [h1] at h; exact absurd h (by simp)
  | some p1 =>
    obtain ⟨r, l1⟩ := p1
    rw [h1] at h
    dsimp only at h
    cases h2 : hexPair l1 with
    | none => rw [h2] at h; exact absurd h (by simp)
    | some p2 =>
      obtain ⟨g, l2⟩ := p2
      rw [h2] at h
      dsimp only at h
      cases h3 : hexPair l2 with
      | none => rw [h3] at h; exact absurd h (by simp)
      | some p3 =>
        obtain ⟨b, l3⟩ := p3
        rw [h3] at h
        dsimp only at h
        by_cases he : l3.isEmpty
        · have hl3 : l3 = [] := by
            cases l3 with
            | nil => rfl
            | cons x xs => exact absurd he (by simp)
          obtain ⟨a1, b1, hl, ha1, hb1⟩ := hexPair_some h1
          obtain ⟨a2, b2, hl1, ha2, hb2⟩ := hexPair_some h2
          obtain ⟨a3, b3, hl2, ha3, hb3⟩ := hexPair_some h3
          subst hl3
          rw [hl, hl1, hl2]
          simp [ha1, hb1, ha2, hb2, ha3, hb3]
        · rw [if_neg he] at h
          exact absurd h (by simp)


/-- Any input failing the six-hex-digit shape comes out black. -/
theorem hexToRGB_black {l : List Nat} (h : isHex6 l = false) :
    hexToRGB l = (0, 0, 0) := by
  unfold hexToRGB
  cases hm : hexMatch (hexBody l) with
  | none => rfl
  | some v =>
    obtain ⟨h6, hall⟩ := hexMatch_some_isHex6 hm
    unfold isHex6 at h
    rw [h6, hall] at h
    simp at h


/-! ### Character-level lemmas for the idempotence proof -/
theorem upCode_not_lower (n : Nat) : lowerCode (upCode n) = false := by
  unfold upCode
  split
  · rename_i h
    simp only [lowerCode, Bool.and_eq_true, decide_eq_true_eq] at h
    simp only [lowerCode, Bool.and_eq_false_iff, decide_eq_false_iff_not]
    omega
  · rename_i h
    simpa using h


theorem upCode_not_ws {n : Nat} (h : wsCode n = false) : wsCode (upCode n) = false := by
  unfold upCode
  split
  · rename_i hl
    simp only [lowerCode, Bool.and_eq_true, decide_eq_true_eq] at hl
    simp only [wsCode, Bool.or_eq_false_iff, decide_eq_false_iff_not]
    omega
  · exact h


theorem upCode_fix {n : Nat} (h : lowerCode n = false) : upCode n = n := by
  unfold upCode
  simp [h]


theorem jsToUpper_fix {l : List Nat} (h : ∀ c ∈ l, lowerCode c = false) :
    jsToUpper l = l := by
  unfold jsToUpper
  conv_rhs => rw [← List.map_id l]
  exact List.map_congr_left (fun a ha => upCode_fix (h a ha))


theorem dropWhile_head_not (p : Nat → Bool) (l : List Nat) :
    ∀ c, ((l.dropWhile p).head? = some c) → p c = false := by
  induction l with
  | nil => intro c hc; simp [List.dropWhile] at hc
  | cons a as ih =>
    intro c hc
    rw [List.dropWhile_cons] at hc
    by_cases h : p a
    · rw [if_pos h] at hc
      exact ih c hc
    · rw [if_neg h] at hc
      simp only [List.head?_cons, Option.some_inj] at hc
      subst hc
      simpa using h


theorem dropWhile_eq_self_of_head (p : Nat → Bool) (l : List Nat)
    (h : ∀ c, l.head? = some c → p c = false) : l.dropWhile p = l := by
  cases l with
  | nil => rfl
  | cons a as => simp [List.dropWhile_cons, h a rfl]


theorem jsTrim_fix {l : List Nat} (h1 : ∀ c, l.head? = some c → wsCode c = false)
    (h2 : ∀ c, l.reverse.head? = some c → wsCode c = false) : jsTrim l = l := by
  unfold jsTrim
  rw [dropWhile_eq_self_of_head _ _ h1, dropWhile_eq_self_of_head _ _ h2,
    List.reverse_reverse]


theorem matchRgbAt_eq_none {l : List Nat} (h : l.head? ≠ some 114) :
    matchRgbAt l = none := by
  unfold matchRgbAt
  split
  · exact absurd rfl h
  · exact absurd rfl h
  · rfl


theorem findRgb_eq_none {l : List Nat} (h : ∀ c ∈ l, lowerCode c = false) :
    findRgb l = none := by
  induction l with
  | nil => rfl
  | cons a as ih =>
    have ha : matchRgbAt (a :: as) = none := by
      apply matchRgbAt_eq_none
      intro hc
      have h114 : a = 114 := by simpa using hc
      have := h a (List.mem_cons_self a as)
      rw [h114] at this
      simp [lowerCode] at this
    rw [findRgb, ha]
    exact ih (fun c hc => h c (List.mem_cons_of_mem _ hc))


theorem lastOk_spec {l : List Nat} (h : lastOk l = true) :
    ∀ c, l.reverse.head? = some c → wsCode c = false := by
  intro c hc
  unfold lastOk at h
  rw [hc] at h
  simpa using h


theorem lastOk_of_all {l : List Nat} (h : ∀ c ∈ l, wsCode c = false) :
    lastOk l = true := by
  unfold lastOk
  cases hc : l.reverse.head? with
  | none => rfl
  | some c =>
    have hmem : c ∈ l.reverse := by
      have h2 := List.eq_cons_of_mem_head? (show c ∈ l.reverse.head? by rw [hc]; rfl)
      rw [h2]
      exact List.mem_cons_self _ _
    simp [h c (List.mem_reverse.mp hmem)]


theorem lastOk_jsTrim (l : List Nat) : lastOk (jsTrim l) = true := by
  unfold lastOk jsTrim
  rw [List.reverse_reverse]
  cases hc : ((l.dropWhile wsCode).reverse.dropWhile wsCode).head? with
  | none => rfl
  | some c => simp [dropWhile_head_not wsCode _ c hc]


theorem normalizeColor_fix {l : List Nat} (h : GoodColor l) : normalizeColor l = l := by
  have htrim : jsTrim l = l :=
    jsTrim_fix (fun c hc => by rw [h.head35] at hc; cases hc; decide) (lastOk_spec h.lastNW)
  rw [normalizeColor, htrim, normColorCore, findRgb_eq_none h.noLower]
  rw [if_pos h.head35]
  exact jsToUpper_fix h.noLower


theorem hexDigitOut_bound {k : Nat} (h : k < 16) :
    48 ≤ hexDigitOut k ∧ hexDigitOut k ≤ 102 := by
  unfold hexDigitOut
  split <;> omega


theorem toHexAux_bound :
    ∀ (fuel n : Nat) (acc : List Nat), (∀ c ∈ acc, 48 ≤ c ∧ c ≤ 102) →
      ∀ c ∈ toHexAux fuel n acc, 48 ≤ c ∧ c ≤ 102 := by
  intro fuel
  induction fuel with
  | zero => intro n acc hacc c hc; exact hacc c hc
  | succ f ih =>
    intro n acc hacc c hc
    rw [toHexAux] at hc
    split at hc
    · rename_i hn
      rcases List.mem_cons.mp hc with h1 | h1
      · rw [h1]; exact hexDigitOut_bound hn
      · exact hacc c h1
    · refine ih (n / 16) _ ?_ c hc
      intro d hd
      rcases List.mem_cons.mp hd with h1 | h1
      · rw [h1]; exact hexDigitOut_bound (Nat.mod_lt _ (by omega))
      · exact hacc d h1


theorem toHex_bound {n : Nat} : ∀ c ∈ toHex n, 48 ≤ c ∧ c ≤ 102 :=
  toHexAux_bound (n + 1) n [] (by intro c hc; cases hc)


theorem padStart2_bound {l : List Nat} (h : ∀ c ∈ l, 48 ≤ c ∧ c ≤ 102) :
    ∀ c ∈ padStart2 l, 48 ≤ c ∧ c ≤ 102 := by
  intro c hc
  unfold padStart2 at hc
  split at hc
  · exact h c hc
  · rcases List.mem_append.mp hc with h1 | h1
    · have := List.eq_of_mem_replicate h1
      omega
    · exact h c h1


theorem goodColor_upper_hash {rest : List Nat} (hrest : ∀ c ∈ rest, wsCode c = false) :
    GoodColor (jsToUpper (35 :: rest)) := by
  have hall : ∀ c ∈ jsToUpper (35 :: rest), wsCode c = false := by
    intro c hc
    rcases List.mem_map.mp hc with ⟨a, ha, rfl⟩
    rcases List.mem_cons.mp ha with h1 | h1
    · rw [h1]; decide
    · exact upCode_not_ws (hrest a h1)
  refine ⟨?_, lastOk_of_all hall, ?_⟩
  · show (List.map upCode (35 :: rest)).head? = some 35
    rw [List.map_cons]
    rfl
  · intro c hc
    rcases List.mem_map.mp hc with ⟨a, _, rfl⟩
    exact upCode_not_lower a


theorem namedColors_good : ∀ p ∈ namedColors, GoodColor p.2 := by
  intro p hp
  fin_cases hp <;> exact ⟨by decide, by decide, by decide⟩


theorem normalizeColor_good (l : List Nat) : GoodColor (normalizeColor l) := by
  rw [normalizeColor, normColorCore]
  cases hr : findRgb (jsTrim l) with
  | some v =>
    obtain ⟨r, g, b⟩ := v
    refine goodColor_upper_hash ?_
    intro c hc
    have hb : 48 ≤ c ∧ c ≤ 102 := by
      rcases List.mem_append.mp hc with h1 | h1
      · rcases List.mem_append.mp h1 with h2 | h2
        · exact padStart2_bound (fun d hd => toHex_bound d hd) c h2
        · exact padStart2_bound (fun d hd => toHex_bound d hd) c h2
      · exact padStart2_bound (fun d hd => toHex_bound d hd) c h1
    simp only [wsCode, Bool.or_eq_false_iff, decide_eq_false_iff_not]
    omega
  | none =>
    by_cases h35 : (jsTrim l).head? = some 35
    · rw [if_pos h35]
      refine ⟨?_, ?_, ?_⟩
      · rw [show jsToUpper (jsTrim l) = List.map upCode (jsTrim l) from rfl,
          List.head?_map, h35]
        rfl
      · unfold lastOk
        rw [show jsToUpper (jsTrim l) = List.map upCode (jsTrim l) from rfl,
          ← List.map_reverse, List.head?_map]
        cases hc : (jsTrim l).reverse.head? with
        | none => rfl
        | some c =>
          have := lastOk_spec (lastOk_jsTrim l) c hc
          simpa using upCode_not_ws this
      · intro c hc
        rcases List.mem_map.mp hc with ⟨a, _, rfl⟩
        exact upCode_not_lower a
    · rw [if_neg h35]
      cases hl : lookupNamed (jsToLower (jsTrim l)) with
      | some v =>
        unfold lookupNamed at hl
        rcases Option.map_eq_some'.mp hl with ⟨p, hp, rfl⟩
        exact namedColors_good p (List.mem_of_find?_eq_some hp)
      | none => exact ⟨by decide, by decide, by decide⟩


/-- `normalizeColor` is idempotent on every code-unit sequence. -/
theorem normalizeColor_idem (l : List Nat) :
    normalizeColor (normalizeColor l) = normalizeColor l :=
  normalizeColor_fix (normalizeColor_good l)


theorem normalizeColor_head35 (l : List Nat) :
    (normalizeColor l).head? = some 35 :=
  (normalizeColor_good l).head35


theorem normalizeColor_ne_nil (l : List Nat) : normalizeColor l ≠ [] := by
  intro h
  have := normalizeColor_head35 l
  rw [h] at this
  cases this


theorem normalizeColor_ne_none_str (l : List Nat) :
    normalizeColor l ≠ codes ("none") := by
  intro h
  have h35 := normalizeColor_head35 l
  rw [h] at h35
  cases h35


theorem effFill_set (e : SVGElem) (c : List Nat) :
    effFill { e with fill := some (normalizeColor c) } = normalizeColor c := by
  have hne : (normalizeColor c).isEmpty = false := by
    cases h : normalizeColor c with
    | nil => exact absurd h (normalizeColor_ne_nil c)
    | cons a as => rfl
  have hnone := normalizeColor_ne_none_str c
  unfold effFill rawFill jsFalsy
  simp [hne, hnone]


theorem normFill_set (e : SVGElem) (c : List Nat) :
    normalizeColor (effFill { e with fill := some (normalizeColor c) })
      = normalizeColor c := by
  rw [effFill_set, normalizeColor_idem]


theorem roundtrip_elem (A B : List Nat) (e : SVGElem) :
    (normalizeColor (effFill (recolorElem (normalizeColor B) (normalizeColor A)
        (recolorElem (normalizeColor A) (normalizeColor B) e))) = normalizeColor A)
      ↔ (normalizeColor (effFill e) = normalizeColor A
          ∨ normalizeColor (effFill e) = normalizeColor B) := by
  unfold recolorElem
  by_cases h1 : normalizeColor (effFill e) = normalizeColor A
  · rw [if_pos h1]
    rw [if_pos (normFill_set e B), normFill_set]
    simp [h1]
  · rw [if_neg h1]
    by_cases h2 : normalizeColor (effFill e) = normalizeColor B
    · rw [if_pos h2, normFill_set]
      simp [h2]
    · rw [if_neg h2]
      simp [h1, h2]


example :
    effFill ⟨none, some (codes ("stroke:none;fill: red ;x:1"))⟩ = codes ("red") := by decide


/-- C6 (amended): recoloring `A → B` then `B → A` leaves the number of
elements whose normalized fill is `A` equal to the original count of
`A`-elements plus the original count of `B`-elements (for distinct
normalized colors); the original count is restored exactly when no element
initially carried `B`. -/
theorem recolorGroup_roundtrip_count (doc : List SVGElem) (A B : List Nat)
    (h : normalizeColor A ≠ normalizeColor B) :
    countColor (recolorGroup (recolorGroup doc A B) B A) A
      = countColor doc A + countColor doc B := by
  induction doc with
  | nil => rfl
  | cons e es ih =>
    have hiff := roundtrip_elem A B e
    by_cases h1 : normalizeColor (effFill e) = normalizeColor A <;>
      by_cases h2 : normalizeColor (effFill e) = normalizeColor B
    · exact absurd (h1.symm.trans h2) h
    · have hA := decide_eq_true h1
      have hB := decide_eq_false h2
      have hR := decide_eq_true (hiff.mpr (Or.inl h1))
      unfold countColor recolorGroup at ih ⊢
      simp only [List.map_cons, List.filter_cons, hA, hB, hR]
      simp only [if_true, Bool.false_eq_true, if_false, List.length_cons]
      omega
    · have hA := decide_eq_false h1
      have hB := decide_eq_true h2
      have hR := decide_eq_true (hiff.mpr (Or.inr h2))
      unfold countColor recolorGroup at ih ⊢
      simp only [List.map_cons, List.filter_cons, hA, hB, hR]
      simp only [if_true, Bool.false_eq_true, if_false, List.length_cons]
      omega
    · have hA := decide_eq_false h1
      have hB := decide_eq_false h2
      have hR := decide_eq_false (fun hr => by
        rcases hiff.mp hr with hx | hx
        · exact h1 hx
        · exact h2 hx)
      unfold countColor recolorGroup at ih ⊢
      simp only [List.map_cons, List.filter_cons, hA, hB, hR]
      simp only [if_true, Bool.false_eq_true, if_false, List.length_cons]
      omega

example : normalizeColor (codes ("rgb(300,0,0)")) = codes ("#12C0000") := by decide

example : normalizeColor (codes ("rgb(255, 10, 0)")) = codes ("#FF0A00") := by decide

example : normalizeColor (codes ("red")) = codes ("#FF0000") := by decide

example : normalizeColor (codes ("none")) = codes ("#000000") := by decide

example : colorFormatOK (normalizeColor (codes ("#abc"))) = false := by decide

example : colorFormatOK (normalizeColor (codes ("red"))) = true := by decide


/-! ## The claims -/


/-- C1 (counterexample): the input `M0 0 H10` parses into a recognized `M`
command and a recognized `H` (code 72) command, yet the emitted operator
sequence contains only the `moveTo` — the `H` is silently omitted instead of
being expanded to a `lineTo`. -/
theorem pathCommands_H_dropped_cex :
    parseSVGPath (codes ("M0 0 H10"))
      = [⟨77, [.val (jqInt 0), .val (jqInt 0)]⟩, ⟨72, [.val (jqInt 10)]⟩]
  ∧ pathCommandsToPDF (parseSVGPath (codes ("M0 0 H10")))
      = [.moveOp (.val (jqInt 0)) (.val (jqInt 0))] := by
  decide


/-- C1 (amended): the interpreter normalizes only `M m L l C c Z z`; the
twelve other recognized command letters (`H h V v Q q T t S s A a`) are
parsed as commands but fall through the switch, producing no operator and
leaving the current point unchanged — they are dropped, not expanded. -/
theorem pathCommands_drop_unsupported :
    (∀ (st : JSNum × JSNum) (args : List JSNum),
      [72, 104, 86, 118, 81, 113, 84, 116, 83, 115, 65, 97].map
          (fun c => pdfCmdStep st ⟨c, args⟩)
        = List.replicate 12 (st, []))
  ∧ pathCommandsToPDF (parseSVGPath (codes ("M0 0 H10 V20 Q1 2 3 4 Z")))
      = [.moveOp (.val (jqInt 0)) (.val (jqInt 0)), .closeOp] := by
  constructor
  · intro st args
    rfl
  · decide


/-- C2 (counterexample): `normalizeColor` output does not always match
`^#[0-9A-F]{6}$`: a 3-digit hex input passes through unexpanded, and rgb
components above 255 are not clamped. -/
theorem normalizeColor_format_cex :
    colorFormatOK (normalizeColor (codes ("#abc"))) = false
  ∧ normalizeColor (codes ("#abc")) = codes ("#ABC")
  ∧ colorFormatOK (normalizeColor (codes ("rgb(300,0,0)"))) = false
  ∧ normalizeColor (codes ("rgb(300,0,0)")) = codes ("#12C0000") := by
  decide


/-- C2 (amended): `normalizeColor` is total and idempotent on every input,
and its output always begins with `#`; but the 6-uppercase-hex-digit format
is only guaranteed for named colors and in-range `rgb()` input — 3-digit hex
passes through unexpanded and out-of-range rgb components are converted
without clamping. -/
theorem normalizeColor_total_idem_amended :
    (∀ l, normalizeColor (normalizeColor l) = normalizeColor l)
  ∧ (∀ l, (normalizeColor l).head? = some 35)
  ∧ normalizeColor (codes ("red")) = codes ("#FF0000")
  ∧ colorFormatOK (normalizeColor (codes ("red"))) = true
  ∧ colorFormatOK (normalizeColor (codes ("rgb(255, 10, 0)"))) = true
  ∧ normalizeColor (codes ("#abc")) = codes ("#ABC")
  ∧ normalizeColor (codes ("rgb(300,0,0)")) = codes ("#12C0000") := by
  refine ⟨normalizeColor_idem, normalizeColor_head35, ?_, ?_, ?_, ?_, ?_⟩
    <;> decide


/-- C5 (counterexample): on `@! M0 0 Lfoo 5` the parser does not fail:
the leading non-command characters `@! ` are silently skipped and the
unparsable token `foo` becomes a NaN argument of the `L` command — no
`ParseError` of any kind exists in this code path. -/
theorem parseSVGPath_no_error_cex :
    parseSVGPath (codes ("@! M0 0 Lfoo 5"))
      = [⟨77, [.val (jqInt 0), .val (jqInt 0)]⟩, ⟨76, [.nan, .val (jqInt 5)]⟩] := by
  decide


/-- C5 (amended): `parseSVGPath` is total and silently permissive: any
character that is not a command letter is skipped without any error report,
and an unparsable numeric token is kept as a NaN argument. -/
theorem parseSVGPath_total_skips :
    (∀ (c : Nat) (d : List Nat), cmdLetter c = false
      → parseSVGPath (c :: d) = parseSVGPath d)
  ∧ parseSVGPath (codes ("M0 0 Lfoo 5"))
      = [⟨77, [.val (jqInt 0), .val (jqInt 0)]⟩, ⟨76, [.nan, .val (jqInt 5)]⟩] := by
  constructor
  · intro c d h
    simp [parseSVGPath, List.length_cons, lexPathAux, h]
  · decide


/-- C5 (witness for the amended theorem): `@` (code 64) is not a command
letter and is skipped. -/
theorem parseSVGPath_total_skips_witness :
    cmdLetter 64 = false
  ∧ parseSVGPath (64 :: codes ("M0 0")) = parseSVGPath (codes ("M0 0")) :=
  ⟨by decide, parseSVGPath_total_skips.1 64 (codes ("M0 0")) (by decide)⟩


/-- C10: `hexToRGB` yields black `(0,0,0)` for every input that is not a
6-hex-digit color optionally prefixed with `#`; in particular the named
color `red` and the 3-digit hex `#ABC` are emitted with the color-set
operator triple for black. -/
theorem hexToRGB_black_fallback :
    (∀ l, isHex6 l = false → hexToRGB l = (0, 0, 0))
  ∧ hexToRGB (codes ("red")) = (0, 0, 0)
  ∧ hexToRGB (codes ("#ABC")) = (0, 0, 0)
  ∧ rgOperator (codes ("red")) = (0, 0, 0)
  ∧ rgOperator (codes ("#ABC")) = (0, 0, 0) := by
  refine ⟨fun l h => hexToRGB_black h, by decide, by decide, ?_, ?_⟩
  · have h : hexToRGB (codes ("red")) = (0, 0, 0) := by decide
    rw [rgOperator, h]
    norm_num
  · have h : hexToRGB (codes ("#ABC")) = (0, 0, 0) := by decide
    rw [rgOperator, h]
    norm_num


/-- C10 (witness): `red` is not hex and maps to black. -/
theorem hexToRGB_black_fallback_witness :
    isHex6 (codes ("red")) = false ∧ hexToRGB (codes ("red")) = (0, 0, 0) :=
  ⟨by decide, hexToRGB_black_fallback.1 (codes ("red")) (by decide)⟩


/-- C3 (counterexample): two runs that differ only in a `setParams 5` issued
after both tasks were enqueued: the second task — already enqueued at that
point — is traced with parameters 5 in one run and 0 in the other, with
different outputs, so the conversion does not use an enqueue-time
snapshot. -/
theorem queue_params_snapshot_cex :
    (runQ paramTracer initQ
        [.enqueue [qt1, qt2], .setParams 5, .step, .step, .step, .step]).2
      = [.progress 1 10, .invoke 1 0, .progress 1 100, .complete 1 [0],
         .progress 2 10, .invoke 2 5, .progress 2 100, .complete 2 [5]]
  ∧ (runQ paramTracer initQ
        [.enqueue [qt1, qt2], .step, .step, .step, .step]).2
      = [.progress 1 10, .invoke 1 0, .progress 1 100, .complete 1 [0],
         .progress 2 10, .invoke 2 0, .progress 2 100, .complete 2 [0]]
  ∧ ((runQ paramTracer initQ
        [.enqueue [qt1, qt2], .setParams 5, .step, .step, .step, .step]).2.filter
          (fun e => eventId e = 2)
      ≠ (runQ paramTracer initQ
          [.enqueue [qt1, qt2], .step, .step, .step, .step]).2.filter
            (fun e => eventId e = 2)) := by
  refine ⟨by decide, by decide, by decide⟩


/-- C3 (amended): a task is traced with the parameters current when its
processing begins, not with an enqueue-time snapshot: the event log is
prefix-stable (later actions never rewrite already emitted invocations), a
`setParams` issued before a queued task starts does change its invocation
and output, and a `setParams` issued after a task's tracer call has been
made has no effect on any of its events. -/
theorem queue_invocation_params :
    (∀ (f : QTask → Nat → ConvResult) (s : QState) (pre post : List QAction),
      (runQ f s (pre ++ post)).2
        = (runQ f s pre).2 ++ (runQ f (runQ f s pre).1 post).2)
  ∧ ((runQ paramTracer initQ
        [.enqueue [qt1, qt2], .setParams 5, .step, .step, .step, .step]).2.filter
          (fun e => eventId e = 2)
      = [.progress 2 10, .invoke 2 5, .progress 2 100, .complete 2 [5]])
  ∧ ((runQ paramTracer initQ
        [.enqueue [qt1, qt2], .step, .step, .setParams 7, .step, .step]).2
      = (runQ paramTracer initQ
          [.enqueue [qt1, qt2], .step, .step, .step, .step]).2) := by
  refine ⟨?_, by decide, by decide⟩
  intro f s pre post
  rw [runQ_append]


/-- C4 (counterexample): the malformed document is not reported as an
error: its batch entry is identical to that of a successfully parsed empty
document, so no error (and no per-document changed count) is observable in
the output at all. -/
theorem applyBulk_no_error_report_cex :
    applyBulkColorChange [⟨6, true, .malformed⟩] (codes ("#AA0000")) (codes ("#123456"))
      = applyBulkColorChange [⟨6, true, .wellFormed []⟩]
          (codes ("#AA0000")) (codes ("#123456"))
  ∧ applyBulkColorChange [⟨6, true, .malformed⟩]
        (codes ("#AA0000")) (codes ("#123456"))
      = [(6, [])] := by
  refine ⟨by decide, by decide⟩


/-- C4 (amended): `applyBulkColorChange` processes each success-status
document independently — the output for a batch is the concatenation of the
outputs for its parts, so one document can never block another — and in the
six-document scenario all six are processed; the three documents carrying
the color have a positive would-be changed count and the others zero, but no
per-document error or changed count is reported: the malformed document
yields an ordinary entry equal to that of an empty document. -/
theorem applyBulk_independent_amended :
    (∀ (l1 l2 : List BulkDoc) (cf ct : List Nat),
      applyBulkColorChange (l1 ++ l2) cf ct
        = applyBulkColorChange l1 cf ct ++ applyBulkColorChange l2 cf ct)
  ∧ (applyBulkColorChange sixBatch (codes ("#AA0000")) (codes ("#123456"))).length = 6
  ∧ sixBatch.map (fun r => countColor (domParse r.svg) (codes ("#AA0000")))
      = [1, 1, 1, 0, 0, 0]
  ∧ applyBulkColorChange sixBatch (codes ("#AA0000")) (codes ("#123456"))
      = [ (1, [⟨some (codes ("#123456")), none⟩]),
          (2, [⟨some (codes ("#123456")), none⟩, elemB]),
          (3, [⟨some (codes ("#123456")), none⟩]),
          (4, [elemB]),
          (5, []),
          (6, []) ] := by
  refine ⟨?_, by decide, by decide, by decide⟩
  intro l1 l2 cf ct
  unfold applyBulkColorChange
  by_cases h : cf.isEmpty || ct.isEmpty
  · simp [h]
  · simp [h, List.filter_append]


/-- C6 (counterexample): with one `#AA0000` element and one `#00BB00`
element, recoloring `#AA0000 → #00BB00` and back yields two elements
carrying `#AA0000` — the original count of one is not restored, because the
element that already carried the target color is swept along. -/
theorem recolor_roundtrip_cex :
    countColor [elemA, elemB] (codes ("#AA0000")) = 1
  ∧ countColor
      (recolorGroup
        (recolorGroup [elemA, elemB] (codes ("#AA0000")) (codes ("#00BB00")))
        (codes ("#00BB00")) (codes ("#AA0000")))
      (codes ("#AA0000")) = 2 := by
  refine ⟨by decide, by decide⟩


/-- C6 (witness for the amended theorem `recolorGroup_roundtrip_count`):
the formula at the two-element document. -/
theorem recolor_roundtrip_witness :
    normalizeColor (codes ("#AA0000")) ≠ normalizeColor (codes ("#00BB00"))
  ∧ countColor
      (recolorGroup
        (recolorGroup [elemA, elemB] (codes ("#AA0000")) (codes ("#00BB00")))
        (codes ("#00BB00")) (codes ("#AA0000")))
      (codes ("#AA0000"))
    = countColor [elemA, elemB] (codes ("#AA0000"))
      + countColor [elemA, elemB] (codes ("#00BB00")) :=
  ⟨by decide,
   recolorGroup_roundtrip_count [elemA, elemB]
     (codes ("#AA0000")) (codes ("#00BB00")) (by decide)⟩


/-- C7 (counterexample): enqueue two tasks, then a third while the first is
still processing; after all three tasks finish the queue reports
`completed = 3` but `total = 2`, because `enqueue` resets `total` to the
current backlog length, which no longer counts the in-flight item. -/
theorem queue_completed_total_cex :
    (runQ constTracer initQ
        [.enqueue [qt1, qt2], .enqueue [qt3],
         .step, .step, .step, .step, .step, .step]).1.completed = 3
  ∧ (runQ constTracer initQ
        [.enqueue [qt1, qt2], .enqueue [qt3],
         .step, .step, .step, .step, .step, .step]).1.total = 2
  ∧ (runQ constTracer initQ
        [.enqueue [qt1, qt2], .enqueue [qt3],
         .step, .step, .step, .step, .step, .step]).1.isProcessing = false := by
  refine ⟨by decide, by decide, by decide⟩


/-- C8 (counterexample): two single-path documents with entirely different
path geometry emit identical entity lists, and the emitted coordinates are
the constants (0,0,0)-(100,100,0) — entity geometry is not a function of the
element's geometry attributes. -/
theorem downloadDXF_fixed_coords_cex :
    downloadDXF [⟨some (codes ("M5 5 L7 7")), some (codes ("#FF0000"))⟩]
      = downloadDXF [⟨some (codes ("M9 9 L1 1")), some (codes ("#FF0000"))⟩]
  ∧ (dxfEntity ⟨some (codes ("M5 5 L7 7")), some (codes ("#FF0000"))⟩).x1 = 0
  ∧ (dxfEntity ⟨some (codes ("M5 5 L7 7")), some (codes ("#FF0000"))⟩).x2 = 100 := by
  refine ⟨by decide, by decide, by decide⟩


/-- C8 (amended): the CAD-exchange emitter emits exactly one LINE entity
per `path` element, bracketed by header and end-of-file section markers,
but every entity carries the fixed coordinates (0,0,0)-(100,100,0)
regardless of the element, and only the color index depends on the element
(256 for a raw fill of exactly `#000000`, else 7). -/
theorem downloadDXF_structure_amended :
    (∀ paths, dxfEntityCount (downloadDXF paths) = paths.length)
  ∧ (∀ paths, (downloadDXF paths).head? = some .header
      ∧ (downloadDXF paths).getLast? = some .eof)
  ∧ (∀ p q : PathElem,
        (dxfEntity p).x1 = (dxfEntity q).x1 ∧ (dxfEntity p).y1 = (dxfEntity q).y1
      ∧ (dxfEntity p).z1 = (dxfEntity q).z1 ∧ (dxfEntity p).x2 = (dxfEntity q).x2
      ∧ (dxfEntity p).y2 = (dxfEntity q).y2 ∧ (dxfEntity p).z2 = (dxfEntity q).z2)
  ∧ (∀ d, (dxfEntity ⟨d, some (codes ("#000000"))⟩).colorIndex = 256)
  ∧ (∀ d, (dxfEntity ⟨d, some (codes ("#FF0000"))⟩).colorIndex = 7) := by
  refine ⟨?_, ?_, ?_, ?_, ?_⟩
  · intro paths
    simp [dxfEntityCount, downloadDXF]
  · intro paths
    exact ⟨rfl, rfl⟩
  · intro p q
    exact ⟨rfl, rfl, rfl, rfl, rfl, rfl⟩
  · intro d
    rfl
  · intro d
    rfl


set_option maxHeartbeats 2000000


/-- C9: `circleToBezier` is the rendering of exactly four cubic segments;
consecutive segments are joined and the last returns to the start point
(the map of end points is the rotation of the map of start points); every
control point lies at squared distance `(k*r)^2` from its adjacent
endpoint, with `k = 0.552` within 0.001 of the standard ratio 0.5523; and
on the radius-10 circle at the origin every sampled point (17 samples per
quadrant) stays within 1% of the radius. -/
theorem circleToBezier_four_segments_accuracy :
    (∀ cx cy r : ℚ, circleToBezier cx cy r = cubicOps (cx - r, cy) (circleSegs cx cy r))
  ∧ (∀ cx cy r : ℚ, (circleSegs cx cy r).length = 4)
  ∧ (∀ cx cy r : ℚ, (circleSegs cx cy r).map Cubic.p3
      = ((circleSegs cx cy r).map Cubic.p0).rotate 1)
  ∧ (∀ cx cy r : ℚ,
      (circleSegs cx cy r).map (fun s => dist2 s.c1 s.p0)
        = List.replicate 4 ((circleK * r) ^ 2)
      ∧ (circleSegs cx cy r).map (fun s => dist2 s.c2 s.p3)
        = List.replicate 4 ((circleK * r) ^ 2))
  ∧ |circleK - 5523 / 10000| < 1 / 1000
  ∧ (∀ si : Fin 4, ∀ ti : Fin 17,
      (99 / 10 : ℚ) ^ 2 < dist2 (circleSample si ti) (0, 0)
        ∧ dist2 (circleSample si ti) (0, 0) < (101 / 10 : ℚ) ^ 2) := by
  refine ⟨fun cx cy r => rfl, fun cx cy r => rfl, fun cx cy r => rfl, ?_, ?_, ?_⟩
  · intro cx cy r
    have hrep : List.replicate 4 ((circleK * r) ^ 2)
        = [(circleK * r) ^ 2, (circleK * r) ^ 2, (circleK * r) ^ 2, (circleK * r) ^ 2] := rfl
    constructor <;>
      · rw [hrep]
        simp only [circleSegs, dist2, List.map_cons, List.map_nil, List.cons.injEq, and_true]
        refine ⟨by ring, by ring, by ring, by ring⟩
  · rw [circleK]
    rw [abs_lt]
    constructor <;> norm_num
  · intro si ti
    fin_cases si <;> fin_cases ti <;>
      (constructor <;> norm_num [circleSample, circleSegs, bezPoint, dist2, circleK])


end SVGVec
